import Mathlib

/-!
Verification of the frame-transport layer of the apple-lidar-stream
repository (`Lidar_Stream.py`, `CSVPlot.py`).

The Python code is shallowly embedded: images are lists of rows
(row-major), depth samples are exact rationals standing for the
floating-point meter values, bytes are natural numbers below 256, and the
side effects of the socket code (bytes sent, sleeps, connection attempts)
are recorded in an explicit effect trace returned next to the updated
session state.
-/

/-- Little-endian 4-byte encoding of a natural number, as produced by
`struct.pack("<I", n)` for `n < 2^32`. -/
def u32le (n : ℕ) : List ℕ :=
  [n % 256, n / 256 % 256, n / 65536 % 256, n / 16777216 % 256]

/-- Little-endian 2-byte encoding of a natural number, as produced by a
numpy little-endian `uint16` element for `n < 2^16`. -/
def u16le (n : ℕ) : List ℕ :=
  [n % 256, n / 256 % 256]

/-- Truncation of a rational toward zero, the rounding used by a C float
to integer cast (and hence by `numpy.ndarray.astype` on in-range
values). -/
def ratTrunc (q : ℚ) : ℤ :=
  if 0 ≤ q then ⌊q⌋ else ⌈q⌉

/-- One depth sample's journey in `send_frame`
(`depth_mm = (depth * 1000).astype(np.uint16)`): meters are scaled to
millimeters and cast to `uint16`.  The cast truncates toward zero and is
reduced mod 2^16 (numpy leaves the out-of-range behaviour to the C cast;
the model fixes the wrap-around reading, and every claim is settled on
in-range inputs where no wrap occurs). -/
def depthToU16 (d : ℚ) : ℕ :=
  (ratTrunc (d * 1000)).toNat % 65536

/-- The depth plane bytes: `depth_mm.flatten().tobytes()` — the samples in
row-major order, each as a little-endian `uint16`. -/
def depthPlane (depth : List (List ℚ)) : List ℕ :=
  (depth.flatten.map depthToU16).flatMap u16le

/-- The RGB plane bytes: `rgb.astype(np.uint8).flatten().tobytes()` — the
channel values in row-major order, each reduced mod 2^8 by the `uint8`
cast. -/
def rgbPlane (rgb : List (List (List ℕ))) : List ℕ :=
  (rgb.flatten.flatten).map (fun c => c % 256)

/-- The packet body of `send_frame`:
`struct.pack("<II", width, height) + depth_bytes + rgb_bytes`, where
`height, width = depth.shape`. -/
def packetBody (depth : List (List ℚ)) (rgb : List (List (List ℕ))) : List ℕ :=
  u32le (depth.headD []).length ++ u32le depth.length ++ depthPlane depth ++ rgbPlane rgb

/-- Everything `send_frame` writes to the socket for one frame:
`length_bytes + packet`, the body prefixed with its own 4-byte
little-endian length. -/
def encodeBytes (depth : List (List ℚ)) (rgb : List (List (List ℕ))) : List ℕ :=
  u32le (packetBody depth rgb).length ++ packetBody depth rgb

/-- `rotate_image`: rotation by 0/90/180/270 degrees clockwise, with any
other angle falling back to the identity (the code prints a warning and
returns the image unchanged).  `cv2.ROTATE_90_CLOCKWISE` maps an H×W image
to the W×H image with `out[i][j] = in[H-1-j][i]`, which on row lists is
transpose after reversing the rows; the other cases follow. -/
def rotate_image (image : List (List α)) (angle : ℕ) : List (List α) :=
  if angle = 0 then image
  else if angle = 90 then image.reverse.transpose
  else if angle = 180 then (image.map List.reverse).reverse
  else if angle = 270 then image.transpose.reverse
  else image

/-- The observable side effects of the socket code: a completed
`sendall`, a `time.sleep`, and one TCP connection attempt
(socket creation plus `connect`). -/
inductive Effect where
  | sent (bytes : List ℕ)
  | slept (duration : ℕ)
  | connectAttempt (host : String) (port : ℕ)
deriving DecidableEq

/-- The mutable state of `LiDARStreamer` that the transport code touches:
host, port, the socket handle (abstract), the `connected` flag and the
configured rotation angle. -/
structure Session where
  host : String
  port : ℕ
  sock : Option ℕ
  connected : Bool
  rotation_angle : ℕ
deriving DecidableEq

/-- `send_frame(depth, rgb)`.  Returns the updated session, the boolean
result, and the effect trace.  `ioFail` tells whether the `sendall` raises
(the `except` branch: print, set `connected = False`, return `False`); on
failure no complete packet is delivered, so the trace records no send. -/
def send_frame (s : Session) (depth : List (List ℚ)) (rgb : List (List (List ℕ)))
    (ioFail : Bool) : Session × Bool × List Effect :=
  if !s.connected then (s, false, [])
  else
    let d := if s.rotation_angle ≠ 0 then rotate_image depth s.rotation_angle else depth
    let r := if s.rotation_angle ≠ 0 then rotate_image rgb s.rotation_angle else rgb
    let bytes := encodeBytes d r
    if ioFail then ({ s with connected := false }, false, [])
    else (s, true, [Effect.sent bytes])

/-- The retry loop of `connect_to_unity`, one recursive step per
`for attempt in range(max_retries)` iteration.  `outcomes i` tells whether
the i-th attempt's `sock.connect` succeeds.  A failed attempt closes the
socket and sleeps `retryDelay` — also on the last iteration, since the
`time.sleep` sits inside the `except` block. -/
def connectGo (outcomes : ℕ → Bool) (retryDelay : ℕ) (s : Session) :
    ℕ → ℕ → Session × Bool × List Effect
  | 0, _ => (s, false, [])
  | n + 1, idx =>
    let s1 := { s with sock := some idx }
    if outcomes idx then
      ({ s1 with connected := true }, true, [Effect.connectAttempt s.host s.port])
    else
      let r := connectGo outcomes retryDelay s1 n (idx + 1)
      (r.1, r.2.1,
        Effect.connectAttempt s.host s.port :: Effect.slept retryDelay :: r.2.2)

/-- `connect_to_unity` with the two local constants (`max_retries`,
`retry_delay`) generalized to parameters, as in the spec's
`connect(host, port, maxRetries, retryDelay)`. -/
def connectWithRetries (s : Session) (outcomes : ℕ → Bool)
    (maxRetries retryDelay : ℕ) : Session × Bool × List Effect :=
  connectGo outcomes retryDelay s maxRetries 0

/-- `max_retries = 10` in `connect_to_unity`. -/
def max_retries : ℕ := 10

/-- `retry_delay = 2` in `connect_to_unity`. -/
def retry_delay : ℕ := 2

/-- `connect_to_unity(self)` with its hard-coded constants. -/
def connect_to_unity (s : Session) (outcomes : ℕ → Bool) :
    Session × Bool × List Effect :=
  connectWithRetries s outcomes max_retries retry_delay

/-- Recognizer for sleep effects. -/
def isSleep : Effect → Bool
  | Effect.slept _ => true
  | _ => false

/-- Recognizer for connection-attempt effects. -/
def isConnectAttempt : Effect → Bool
  | Effect.connectAttempt _ _ => true
  | _ => false

/-- How one iteration of the `run` loop ends: back to the top of the
`while True` (`continue`, or falling through to `event.clear()`), or out
of the loop (`break`). -/
inductive LoopOutcome where
  | continueLoop
  | terminated
deriving DecidableEq

/-- The outside world's answers consumed by one iteration of `run`:
whether `event.wait` saw the signal, whether `self.session` is set,
whether `get_depth_frame`/`get_rgb_frame` returned frames, whether
`send_frame` succeeded if reached, and whether `connect_to_unity`
succeeded if reached. -/
structure IterInput where
  signaled : Bool
  hasSession : Bool
  depthAvail : Bool
  rgbAvail : Bool
  sendOk : Bool
  reconnectOk : Bool
deriving DecidableEq

/-- One iteration of the `run` loop's control flow (lines 136–166):
returns the outcome, the number of sends attempted this iteration, and
the number of reconnect cycles run this iteration. -/
def runStep (inp : IterInput) : LoopOutcome × ℕ × ℕ :=
  if !inp.signaled then (LoopOutcome.continueLoop, 0, 0)
  else if !inp.hasSession then (LoopOutcome.continueLoop, 0, 0)
  else if !inp.depthAvail || !inp.rgbAvail then (LoopOutcome.continueLoop, 0, 0)
  else if inp.sendOk then (LoopOutcome.continueLoop, 1, 0)
  else if inp.reconnectOk then (LoopOutcome.continueLoop, 1, 1)
  else (LoopOutcome.terminated, 1, 1)

/-- Modelled from the spec: the Unity-side consumer is not under `src/`.
Reads one little-endian `u32` off the head of the byte stream. -/
def decodeU32 : List ℕ → Option (ℕ × List ℕ)
  | b0 :: b1 :: b2 :: b3 :: rest =>
    some (b0 + 256 * b1 + 65536 * b2 + 16777216 * b3, rest)
  | _ => none

/-- Modelled from the spec: reads `n` little-endian `u16` values off the
head of the byte stream. -/
def decodeU16s : ℕ → List ℕ → Option (List ℕ × List ℕ)
  | 0, rest => some ([], rest)
  | n + 1, b0 :: b1 :: rest =>
    match decodeU16s n rest with
    | some (vs, r) => some ((b0 + 256 * b1) :: vs, r)
    | none => none
  | _ + 1, [] => none
  | _ + 1, [_] => none

/-- Modelled from the spec: the Variant A consumer reads the 4-byte
little-endian length, then exactly that many bytes: width (`u32` LE),
height (`u32` LE), the depth plane as `height*width` little-endian
`uint16` values, then the RGB plane of `3*height*width` bytes.  Returns
`(width, height, depth values in mm, rgb bytes)`. -/
def decodePacket (bytes : List ℕ) : Option (ℕ × ℕ × List ℕ × List ℕ) :=
  match decodeU32 bytes with
  | none => none
  | some (len, rest) =>
    if rest.length = len then
      match decodeU32 rest with
      | none => none
      | some (w, r1) =>
        match decodeU32 r1 with
        | none => none
        | some (h, r2) =>
          match decodeU16s (h * w) r2 with
          | none => none
          | some (dvals, r3) =>
            if r3.length = 3 * (h * w) then some (w, h, dvals, r3) else none
    else none

/-- Modelled from the spec: the Variant B (landmark) encoder is not under
`src/`.  The fixed two-character hand separator; the spec fixes only its
length, not its characters. -/
def handSeparator : String := ";;"

/-- Modelled from the spec: the textual landmark payload — the hands'
joint texts joined with the fixed separator, as bytes.  The payload is
ASCII (digits, brackets, separators), so bytes are modelled as the code
points of the characters. -/
def variantBPayload (hands : List String) : List ℕ :=
  (String.intercalate handSeparator hands).data.map Char.toNat

/-- Modelled from the spec: a Variant B packet — 4-byte little-endian
payload length, then the 8 bytes of the little-endian `f64` timestamp
(abstract, passed in as bytes), then the payload. -/
def encodeVariantB (tsBytes : List ℕ) (hands : List String) : List ℕ :=
  u32le (variantBPayload hands).length ++ tsBytes ++ variantBPayload hands

/-- Modelled from the spec: the producer sends every Variant B packet,
also when no hands were detected ("zero detected hands yields a
zero-length payload, still sent"). -/
def variantBSend (tsBytes : List ℕ) (hands : List String) : Option (List ℕ) :=
  some (encodeVariantB tsBytes hands)

/-- Modelled from the spec: the header row of the telemetry log written by
the Unity side (not under `src/`). -/
def headerColumns : List String :=
  ["frame_id", "timestamp", "fps", "num_hands", "num_joints"]

/-- The columns `CSVPlot.py` reads from the loaded log:
`df["latency_ms"]` (stats and plot 1), `df["fps"]` (stats and plot 2),
`df["num_hands"]` (plot 3). -/
def plotterColumns : List String :=
  ["latency_ms", "fps", "num_hands"]

/-- A concrete session used to instantiate hypotheses at the reference
configuration (`host = "127.0.0.1"`, `port = 5500`): connected, no
rotation. -/
def sessionConn : Session :=
  { host := "127.0.0.1", port := 5500, sock := some 0, connected := true,
    rotation_angle := 0 }

/-- The same configuration before any successful connect. -/
def sessionDisc : Session :=
  { host := "127.0.0.1", port := 5500, sock := none, connected := false,
    rotation_angle := 0 }

/-- A server that never listens: every connection attempt fails. -/
def neverListens : ℕ → Bool := fun _ => false

lemma flatten_length_uniform (l : List (List α)) (w : ℕ)
    (h : ∀ r ∈ l, r.length = w) : l.flatten.length = l.length * w := by
  induction l with
  | nil => simp
  | cons r t ih =>
    simp only [List.flatten_cons, List.length_append, List.length_cons]
    rw [h r (by simp), ih (fun x hx => h x (by simp [hx]))]
    ring

lemma flatMap_u16le_length (vs : List ℕ) :
    (vs.flatMap u16le).length = 2 * vs.length := by
  induction vs with
  | nil => simp
  | cons v t ih =>
    simp only [List.flatMap_cons, List.length_append, List.length_cons, ih, u16le]
    simp; ring

lemma depthPlane_length (depth : List (List ℚ)) (h w : ℕ)
    (hh : depth.length = h) (hw : ∀ r ∈ depth, r.length = w) :
    (depthPlane depth).length = 2 * (h * w) := by
  unfold depthPlane
  rw [flatMap_u16le_length, List.length_map, flatten_length_uniform depth w hw, hh]

lemma rgbPlane_length (rgb : List (List (List ℕ))) (h w : ℕ)
    (hh : rgb.length = h) (hw : ∀ r ∈ rgb, r.length = w)
    (hc : ∀ r ∈ rgb, ∀ px ∈ r, px.length = 3) :
    (rgbPlane rgb).length = 3 * (h * w) := by
  unfold rgbPlane
  rw [List.length_map]
  rw [flatten_length_uniform rgb.flatten 3]
  · rw [flatten_length_uniform rgb w hw, hh]; ring
  · intro px hpx
    rcases List.mem_flatten.mp hpx with ⟨r, hr, hpxr⟩
    exact hc r hr px hpxr

lemma headD_length_of_uniform (depth : List (List ℚ)) (h w : ℕ)
    (hpos : 0 < h) (hh : depth.length = h) (hw : ∀ r ∈ depth, r.length = w) :
    (depth.headD []).length = w := by
  cases depth with
  | nil => simp at hh; omega
  | cons r t => exact hw r (by simp)

lemma packetBody_length (depth : List (List ℚ)) (rgb : List (List (List ℕ)))
    (h w : ℕ) (hh : depth.length = h) (hw : ∀ r ∈ depth, r.length = w)
    (hrh : rgb.length = h) (hrw : ∀ r ∈ rgb, r.length = w)
    (hrc : ∀ r ∈ rgb, ∀ px ∈ r, px.length = 3) :
    (packetBody depth rgb).length = 8 + 2 * (h * w) + 3 * (h * w) := by
  unfold packetBody
  simp only [List.length_append]
  rw [depthPlane_length depth h w hh hw, rgbPlane_length rgb h w hrh hrw hrc]
  simp [u32le]

/-- C1: with the session connected and no rotation configured, for every
`h × w` depth map and `h × w × 3` RGB array, `send_frame` writes to the
socket exactly: the 4-byte little-endian length `8 + 2·h·w + 3·h·w`, then
width and height as 4-byte little-endian `u32`, then the depth plane as
the `h·w` row-major little-endian `uint16` millimeter samples, then the
`3·h·w` row-major RGB bytes. -/
theorem sendFrame_variantA_wire_format (s : Session) (depth : List (List ℚ))
    (rgb : List (List (List ℕ))) (h w : ℕ)
    (hconn : s.connected = true) (hrot : s.rotation_angle = 0)
    (hpos : 0 < h) (hh : depth.length = h) (hw : ∀ r ∈ depth, r.length = w)
    (hrh : rgb.length = h) (hrw : ∀ r ∈ rgb, r.length = w)
    (hrc : ∀ r ∈ rgb, ∀ px ∈ r, px.length = 3) :
    send_frame s depth rgb false =
      (s, true, [Effect.sent (u32le (8 + 2 * (h * w) + 3 * (h * w)) ++
        u32le w ++ u32le h ++ depthPlane depth ++ rgbPlane rgb)]) ∧
    (depthPlane depth).length = 2 * (h * w) ∧
    (rgbPlane rgb).length = 3 * (h * w) := by
  refine ⟨?_, depthPlane_length depth h w hh hw,
    rgbPlane_length rgb h w hrh hrw hrc⟩
  unfold send_frame
  rw [hconn]
  simp only [hrot, ne_eq, not_true_eq_false, if_false, Bool.not_true,
    Bool.false_eq_true, if_neg, ite_false]
  unfold encodeBytes
  rw [packetBody_length depth rgb h w hh hw hrh hrw hrc]
  unfold packetBody
  rw [headD_length_of_uniform depth h w hpos hh hw, hh]
  simp

/-- Witness for C1 at a concrete 1×1 frame. -/
theorem sendFrame_variantA_wire_format_witness :
    send_frame sessionConn [[(1 : ℚ) / 2]] [[[9, 10, 11]]] false =
      (sessionConn, true, [Effect.sent (u32le (8 + 2 * (1 * 1) + 3 * (1 * 1)) ++
        u32le 1 ++ u32le 1 ++ depthPlane [[(1 : ℚ) / 2]] ++
        rgbPlane [[[9, 10, 11]]])]) ∧
    (depthPlane [[(1 : ℚ) / 2]]).length = 2 * (1 * 1) ∧
    (rgbPlane [[[9, 10, 11]]]).length = 3 * (1 * 1) :=
  sendFrame_variantA_wire_format sessionConn [[(1 : ℚ) / 2]] [[[9, 10, 11]]] 1 1
    rfl rfl (by decide) rfl (by simp) rfl (by simp) (by simp)

/-- C10: calling `send_frame` while the session is disconnected returns
`False` immediately, produces no effects (nothing is written, nothing is
rotated or converted), and leaves the session state unchanged. -/
theorem sendFrame_disconnected_noop (s : Session) (depth : List (List ℚ))
    (rgb : List (List (List ℕ))) (ioFail : Bool)
    (h : s.connected = false) :
    send_frame s depth rgb ioFail = (s, false, []) := by
  unfold send_frame
  rw [h]
  simp

/-- Witness for C10 at a concrete disconnected session. -/
theorem sendFrame_disconnected_noop_witness :
    send_frame sessionDisc [[(1 : ℚ)]] [[[1, 2, 3]]] true = (sessionDisc, false, []) :=
  sendFrame_disconnected_noop sessionDisc [[(1 : ℚ)]] [[[1, 2, 3]]] true rfl

/-- C6: if the `sendall` raises while the session is connected,
`send_frame` sets `connected = False`, returns `False`, and its effect
trace contains no connection attempt — reconnection is left entirely to
the caller. -/
theorem sendFrame_ioError_disconnects (s : Session) (depth : List (List ℚ))
    (rgb : List (List (List ℕ))) (h : s.connected = true) :
    send_frame s depth rgb true = ({ s with connected := false }, false, []) := by
  unfold send_frame
  rw [h]
  simp

/-- Witness for C6 at a concrete connected session. -/
theorem sendFrame_ioError_disconnects_witness :
    send_frame sessionConn [[(1 : ℚ)]] [[[1, 2, 3]]] true =
      ({ sessionConn with connected := false }, false, []) :=
  sendFrame_ioError_disconnects sessionConn [[(1 : ℚ)]] [[[1, 2, 3]]] rfl

lemma connectGo_allFail (outcomes : ℕ → Bool) (rd : ℕ)
    (hfail : ∀ i, outcomes i = false) :
    ∀ (n idx : ℕ) (s : Session),
      (connectGo outcomes rd s n idx).2.1 = false ∧
      (connectGo outcomes rd s n idx).1.connected = s.connected ∧
      ((connectGo outcomes rd s n idx).2.2.countP isConnectAttempt) = n ∧
      ((connectGo outcomes rd s n idx).2.2.countP isSleep) = n := by
  intro n
  induction n with
  | zero => intro idx s; simp [connectGo]
  | succ m ih =>
    intro idx s
    have hi := ih (idx + 1) { s with sock := some idx }
    simp only [connectGo, hfail idx, Bool.false_eq_true, if_false, ite_false]
    refine ⟨hi.1, hi.2.1, ?_, ?_⟩
    · rw [List.countP_cons, List.countP_cons]
      simp [isConnectAttempt, isSleep, hi.2.2.1]
    · rw [List.countP_cons, List.countP_cons]
      simp [isConnectAttempt, isSleep, hi.2.2.2]

lemma connectGo_attempts_le (outcomes : ℕ → Bool) (rd : ℕ) :
    ∀ (n idx : ℕ) (s : Session),
      ((connectGo outcomes rd s n idx).2.2.countP isConnectAttempt) ≤ n := by
  intro n
  induction n with
  | zero => intro idx s; simp [connectGo]
  | succ m ih =>
    intro idx s
    by_cases h : outcomes idx = true
    · simp [connectGo, h, List.countP_cons, isConnectAttempt]
    · rw [Bool.not_eq_true] at h
      simp only [connectGo, h, Bool.false_eq_true, if_false, ite_false]
      rw [List.countP_cons, List.countP_cons]
      have hle := ih (idx + 1) { s with sock := some idx }
      simp only [isConnectAttempt, isSleep]
      simp only [Bool.false_eq_true, if_false, if_true, ite_false, ite_true]
      omega

/-- C3 counterexample: with `maxRetries = 3`, `retryDelay = 2` and a
server that never listens, the retry loop sleeps 3 times, not the claimed
2 — the `time.sleep` inside the `except` block also runs after the final
failed attempt. -/
theorem connect_trailing_sleep_counterexample :
    ((connectWithRetries sessionDisc neverListens 3 2).2.2.countP isSleep) = 3 ∧
    (3 : ℕ) ≠ 2 := by
  constructor
  · decide
  · decide

/-- C3 (amended): `connectWithRetries` makes at most `maxRetries`
connection attempts, and when the server never listens it returns failure
after exactly `maxRetries` attempts with exactly `maxRetries` delays — a
delay also follows the final failed attempt — leaving the `connected`
flag as it was. -/
theorem connect_retry_exhaustion (s : Session) (outcomes : ℕ → Bool)
    (maxRetries retryDelay : ℕ) (hfail : ∀ i, outcomes i = false) :
    (∀ outcomes2 : ℕ → Bool,
      ((connectWithRetries s outcomes2 maxRetries retryDelay).2.2.countP
        isConnectAttempt) ≤ maxRetries) ∧
    (connectWithRetries s outcomes maxRetries retryDelay).2.1 = false ∧
    (connectWithRetries s outcomes maxRetries retryDelay).1.connected = s.connected ∧
    ((connectWithRetries s outcomes maxRetries retryDelay).2.2.countP
      isConnectAttempt) = maxRetries ∧
    ((connectWithRetries s outcomes maxRetries retryDelay).2.2.countP
      isSleep) = maxRetries := by
  have h := connectGo_allFail outcomes retryDelay hfail maxRetries 0 s
  exact ⟨fun o2 => connectGo_attempts_le o2 retryDelay maxRetries 0 s,
    h.1, h.2.1, h.2.2.1, h.2.2.2⟩

/-- Witness for C3 (amended) at `maxRetries = 3`, `retryDelay = 2` and a
server that never listens. -/
theorem connect_retry_exhaustion_witness :
    (∀ outcomes2 : ℕ → Bool,
      ((connectWithRetries sessionDisc outcomes2 3 2).2.2.countP
        isConnectAttempt) ≤ 3) ∧
    (connectWithRetries sessionDisc neverListens 3 2).2.1 = false ∧
    (connectWithRetries sessionDisc neverListens 3 2).1.connected =
      sessionDisc.connected ∧
    ((connectWithRetries sessionDisc neverListens 3 2).2.2.countP
      isConnectAttempt) = 3 ∧
    ((connectWithRetries sessionDisc neverListens 3 2).2.2.countP
      isSleep) = 3 :=
  connect_retry_exhaustion sessionDisc neverListens 3 2 (fun _ => rfl)

/-- C7: one iteration of the `run` loop performs at most one reconnect
cycle; whenever a send is attempted and fails, exactly one reconnect
cycle runs, after which the loop continues (back to awaiting the frame
signal) exactly when the reconnect succeeded and terminates exactly when
it failed. -/
theorem runStep_reconnect_policy (inp : IterInput) :
    (runStep inp).2.2 ≤ 1 ∧
    (inp.signaled = true → inp.hasSession = true → inp.depthAvail = true →
      inp.rgbAvail = true → inp.sendOk = false →
      (runStep inp).2.1 = 1 ∧ (runStep inp).2.2 = 1 ∧
      ((runStep inp).1 = LoopOutcome.continueLoop ↔ inp.reconnectOk = true) ∧
      ((runStep inp).1 = LoopOutcome.terminated ↔ inp.reconnectOk = false)) := by
  rcases inp with ⟨sg, hs, da, ra, so, ro⟩
  cases sg <;> cases hs <;> cases da <;> cases ra <;> cases so <;> cases ro <;>
    simp [runStep]

/-- Witness for C7 at a failing send followed by a successful
reconnect. -/
theorem runStep_reconnect_policy_witness :
    (runStep ⟨true, true, true, true, false, true⟩).2.2 ≤ 1 ∧
    ((runStep ⟨true, true, true, true, false, true⟩).2.1 = 1 ∧
      (runStep ⟨true, true, true, true, false, true⟩).2.2 = 1 ∧
      ((runStep ⟨true, true, true, true, false, true⟩).1 =
        LoopOutcome.continueLoop ↔ (true : Bool) = true) ∧
      ((runStep ⟨true, true, true, true, false, true⟩).1 =
        LoopOutcome.terminated ↔ (true : Bool) = false)) :=
  ⟨(runStep_reconnect_policy ⟨true, true, true, true, false, true⟩).1,
    (runStep_reconnect_policy ⟨true, true, true, true, false, true⟩).2
      rfl rfl rfl rfl rfl⟩

/-- C8: a Variant B frame with zero detected hands is encoded as the
4-byte little-endian payload length 0, then the 8 timestamp bytes, and no
payload bytes — a 12-byte packet — and it is still sent rather than
suppressed. -/
theorem variantB_zero_hands_packet (tsBytes : List ℕ)
    (hts : tsBytes.length = 8) :
    encodeVariantB tsBytes [] = [0, 0, 0, 0] ++ tsBytes ∧
    (variantBPayload []).length = 0 ∧
    (encodeVariantB tsBytes []).length = 12 ∧
    variantBSend tsBytes [] = some ([0, 0, 0, 0] ++ tsBytes) := by
  have hp : variantBPayload ([] : List String) = [] := rfl
  have he : encodeVariantB tsBytes [] = [0, 0, 0, 0] ++ tsBytes := by
    unfold encodeVariantB
    rw [hp]
    simp [u32le]
  refine ⟨he, by rw [hp]; rfl, ?_, ?_⟩
  · rw [he]; simp [hts]
  · unfold variantBSend; rw [he]

/-- Witness for C8 at a concrete 8-byte timestamp. -/
theorem variantB_zero_hands_packet_witness :
    encodeVariantB [0, 1, 2, 3, 4, 5, 6, 64] [] =
      [0, 0, 0, 0] ++ [0, 1, 2, 3, 4, 5, 6, 64] ∧
    (variantBPayload []).length = 0 ∧
    (encodeVariantB [0, 1, 2, 3, 4, 5, 6, 64] []).length = 12 ∧
    variantBSend [0, 1, 2, 3, 4, 5, 6, 64] [] =
      some ([0, 0, 0, 0] ++ [0, 1, 2, 3, 4, 5, 6, 64]) :=
  variantB_zero_hands_packet [0, 1, 2, 3, 4, 5, 6, 64] rfl

/-- C9 counterexample: the Offline Plotter reads the column `latency_ms`,
which is not one of the five telemetry header columns. -/
theorem plotter_column_counterexample :
    "latency_ms" ∈ plotterColumns ∧ "latency_ms" ∉ headerColumns := by
  constructor
  · decide
  · decide

/-- C9 (amended): the telemetry header is the five columns `frame_id,
timestamp, fps, num_hands, num_joints`; the Offline Plotter reads
`latency_ms`, `fps` and `num_hands`, of which `fps` and `num_hands` are
header columns but `latency_ms` is not. -/
theorem plotter_columns_vs_header :
    plotterColumns = ["latency_ms", "fps", "num_hands"] ∧
    "fps" ∈ headerColumns ∧ "num_hands" ∈ headerColumns ∧
    "latency_ms" ∉ headerColumns ∧
    plotterColumns.filter (fun c => decide (c ∈ headerColumns)) =
      ["fps", "num_hands"] := by
  refine ⟨rfl, by decide, by decide, by decide, by decide⟩

lemma decodeU32_u32le (n : ℕ) (r : List ℕ) :
    decodeU32 (u32le n ++ r) = some (n % 4294967296, r) := by
  simp only [u32le, List.cons_append, List.nil_append, decodeU32,
    Option.some.injEq, Prod.mk.injEq]
  exact ⟨by omega, trivial⟩

lemma decodeU16s_flatMap (vs : List ℕ) (hv : ∀ v ∈ vs, v < 65536) (r : List ℕ) :
    decodeU16s vs.length (vs.flatMap u16le ++ r) = some (vs, r) := by
  induction vs with
  | nil => simp [decodeU16s]
  | cons v t ih =>
    have hvlt : v < 65536 := hv v (by simp)
    have htl : ∀ x ∈ t, x < 65536 := fun x hx => hv x (by simp [hx])
    show decodeU16s (t.length + 1)
      (v % 256 :: v / 256 % 256 :: (t.flatMap u16le ++ r)) = some (v :: t, r)
    simp only [decodeU16s, ih htl, Option.some.injEq, Prod.mk.injEq,
      List.cons.injEq]
    exact ⟨⟨by omega, trivial⟩, trivial⟩

lemma depthToU16_lt (d : ℚ) : depthToU16 d < 65536 :=
  Nat.mod_lt _ (by norm_num)

lemma depthVals_length (depth : List (List ℚ)) (h w : ℕ)
    (hh : depth.length = h) (hw : ∀ r ∈ depth, r.length = w) :
    (depth.flatten.map depthToU16).length = h * w := by
  rw [List.length_map, flatten_length_uniform depth w hw, hh]

/-- C2 (amended): encoding a frame as a Variant A packet and decoding it
(decoder modelled from the spec) recovers the width, the height, and the
depth samples truncated toward zero to whole millimeters — not rounded to
the nearest millimeter — provided the dimensions and the packet length
fit in a `u32` and every sample is a non-negative in-range value. -/
theorem encode_decode_roundTrip_truncation (depth : List (List ℚ))
    (rgb : List (List (List ℕ))) (h w : ℕ)
    (hpos : 0 < h) (hh : depth.length = h) (hw : ∀ r ∈ depth, r.length = w)
    (hrh : rgb.length = h) (hrw : ∀ r ∈ rgb, r.length = w)
    (hrc : ∀ r ∈ rgb, ∀ px ∈ r, px.length = 3)
    (hwlt : w < 4294967296) (hhlt : h < 4294967296)
    (hlen : 8 + 2 * (h * w) + 3 * (h * w) < 4294967296)
    (hvals : ∀ row ∈ depth, ∀ d ∈ row, 0 ≤ d ∧ ⌊d * 1000⌋ < 65536) :
    decodePacket (encodeBytes depth rgb) =
      some (w, h, depth.flatten.map (fun d => (⌊d * 1000⌋).toNat), rgbPlane rgb) := by
  have hbody : (packetBody depth rgb).length = 8 + 2 * (h * w) + 3 * (h * w) :=
    packetBody_length depth rgb h w hh hw hrh hrw hrc
  have hw' : (depth.headD []).length = w := headD_length_of_uniform depth h w hpos hh hw
  have hmap : depth.flatten.map depthToU16 =
      depth.flatten.map (fun d => (⌊d * 1000⌋).toNat) := by
    refine List.map_congr_left ?_
    intro d hd
    rcases List.mem_flatten.mp hd with ⟨row, hrow, hdrow⟩
    rcases hvals row hrow d hdrow with ⟨hd0, hdlt⟩
    have h0 : (0 : ℚ) ≤ d * 1000 := mul_nonneg hd0 (by norm_num)
    have hfl0 : (0 : ℤ) ≤ ⌊d * 1000⌋ := Int.floor_nonneg.mpr h0
    unfold depthToU16 ratTrunc
    rw [if_pos h0]
    exact Nat.mod_eq_of_lt (by omega)
  have hvlt : ∀ v ∈ depth.flatten.map depthToU16, v < 65536 := by
    intro v hv
    rcases List.mem_map.mp hv with ⟨d, _, hdv⟩
    rw [← hdv]
    exact depthToU16_lt d
  have hd16 : decodeU16s (h * w) (depthPlane depth ++ rgbPlane rgb) =
      some (depth.flatten.map depthToU16, rgbPlane rgb) := by
    rw [show h * w = (depth.flatten.map depthToU16).length from
      (depthVals_length depth h w hh hw).symm]
    exact decodeU16s_flatMap _ hvlt _
  have hrgb : (rgbPlane rgb).length = 3 * (h * w) :=
    rgbPlane_length rgb h w hrh hrw hrc
  unfold decodePacket
  rw [show encodeBytes depth rgb =
    u32le (packetBody depth rgb).length ++ packetBody depth rgb from rfl]
  rw [decodeU32_u32le,
    Nat.mod_eq_of_lt (by rw [hbody]; exact hlen)]
  dsimp only
  rw [if_pos rfl]
  rw [show packetBody depth rgb =
    u32le (depth.headD []).length ++ (u32le depth.length ++
      (depthPlane depth ++ rgbPlane rgb)) from rfl]
  rw [decodeU32_u32le, hw', Nat.mod_eq_of_lt hwlt]
  dsimp only
  rw [decodeU32_u32le, hh, Nat.mod_eq_of_lt hhlt]
  dsimp only
  rw [hd16]
  dsimp only
  rw [if_pos hrgb, hmap]

/-- C2 counterexample: a depth sample of `0.0019` m (1.9 mm) survives the
encode/decode round trip as `1` mm — the `astype(np.uint16)` cast
truncates — while rounding to the nearest millimeter gives `2`. -/
theorem roundTrip_nearest_rounding_counterexample :
    decodePacket (encodeBytes [[(19 : ℚ) / 10000]] [[[5, 6, 7]]]) =
      some (1, 1, [1], [5, 6, 7]) ∧
    round ((19 : ℚ) / 10000 * 1000) = 2 ∧ (1 : ℕ) ≠ 2 := by
  have hd : depthToU16 ((19 : ℚ) / 10000) = 1 := by
    unfold depthToU16 ratTrunc
    rw [if_pos (by norm_num), show ⌊(19 : ℚ) / 10000 * 1000⌋ = 1 by norm_num]
    decide
  refine ⟨?_, by norm_num [round_eq], by decide⟩
  simp only [encodeBytes, packetBody, depthPlane, rgbPlane, List.flatten,
    List.map, hd, u16le, u32le, List.append_nil, List.nil_append,
    List.flatMap_cons, List.flatMap_nil]
  decide

/-- Witness for C2 (amended) at a concrete 1×1 frame with a 1.5 m
sample. -/
theorem encode_decode_roundTrip_truncation_witness :
    decodePacket (encodeBytes [[(3 : ℚ) / 2]] [[[5, 6, 7]]]) =
      some (1, 1, [[(3 : ℚ) / 2]].flatten.map (fun d => (⌊d * 1000⌋).toNat),
        rgbPlane [[[5, 6, 7]]]) :=
  encode_decode_roundTrip_truncation [[(3 : ℚ) / 2]] [[[5, 6, 7]]] 1 1
    (by decide) rfl
    (by intro r hr; rw [List.mem_singleton] at hr; subst hr; rfl) rfl
    (by intro r hr; rw [List.mem_singleton] at hr; subst hr; rfl)
    (by intro r hr; rw [List.mem_singleton] at hr; subst hr
        intro px hpx; rw [List.mem_singleton] at hpx; subst hpx; rfl)
    (by norm_num) (by norm_num) (by norm_num)
    (by intro row hrow d hd
        rw [List.mem_singleton] at hrow; subst hrow
        rw [List.mem_singleton] at hd; subst hd
        constructor
        · norm_num
        · norm_num)

/-- A 4×4 depth map of all 2.5, as in the spec's mismatch scenario. -/
def depthMismatch : List (List ℚ) :=
  List.replicate 4 (List.replicate 4 ((5 : ℚ) / 2))

/-- A 2×2 RGB image, mismatched against the 4×4 depth map. -/
def rgbMismatch : List (List (List ℕ)) :=
  [[[10, 20, 30], [40, 50, 60]], [[70, 80, 90], [100, 110, 120]]]

/-- C4 counterexample: a 4×4 depth map of all 2.5 paired with 2×2 RGB is
not rejected — `send_frame` silently emits a packet (header from the
depth shape, RGB plane of only 12 bytes instead of 3·4·4 = 48) and
reports success. -/
theorem dimension_mismatch_not_raised_counterexample :
    send_frame sessionConn depthMismatch rgbMismatch false =
      (sessionConn, true, [Effect.sent (encodeBytes depthMismatch rgbMismatch)]) ∧
    (depthPlane depthMismatch).length = 2 * (4 * 4) ∧
    (rgbPlane rgbMismatch).length = 12 ∧ (12 : ℕ) ≠ 3 * (4 * 4) := by
  refine ⟨rfl, ?_, by decide, by decide⟩
  refine depthPlane_length depthMismatch 4 4 rfl ?_
  intro r hr
  rw [List.eq_of_mem_replicate hr]
  rfl

/-- C4 (amended): `send_frame` performs no dimension check at all — for
every connected unrotated session and every pair of arrays, whatever
their shapes, it encodes and sends the packet and reports success. -/
theorem sendFrame_no_dimension_check (s : Session) (depth : List (List ℚ))
    (rgb : List (List (List ℕ)))
    (hconn : s.connected = true) (hrot : s.rotation_angle = 0) :
    send_frame s depth rgb false =
      (s, true, [Effect.sent (encodeBytes depth rgb)]) := by
  unfold send_frame
  rw [hconn]
  simp [hrot]

/-- Witness for C4 (amended) at the mismatched 4×4/2×2 input. -/
theorem sendFrame_no_dimension_check_witness :
    send_frame sessionConn depthMismatch rgbMismatch false =
      (sessionConn, true, [Effect.sent (encodeBytes depthMismatch rgbMismatch)]) :=
  sendFrame_no_dimension_check sessionConn depthMismatch rgbMismatch rfl rfl

/-- C5 counterexample: a depth sample of 7.0 m — outside the claimed
[0, 5.0] sensor range — reaches the encoder unclamped: it is encoded as
7000 mm, so the encoded depth is not confined to [0, 5000] mm. -/
theorem depth_sanitization_absent_counterexample :
    depthToU16 7 = 7000 ∧ depthPlane [[(7 : ℚ)]] = u16le 7000 ∧
    ¬(7000 : ℕ) ≤ 5000 := by
  have hd : depthToU16 7 = 7000 := by
    unfold depthToU16 ratTrunc
    rw [if_pos (by norm_num), show ⌊(7 : ℚ) * 1000⌋ = 7000 by norm_num]
    decide
  refine ⟨hd, ?_, by decide⟩
  simp only [depthPlane, List.flatten, List.map, hd, List.append_nil,
    List.nil_append, List.flatMap_cons, List.flatMap_nil]

/-- C5 (amended): `send_frame` applies no sanitization to the depth
values that reach encoding: each non-negative in-range sample is encoded
as its millimeter value truncated toward zero, with no replacement of
special values and no clamp to [0, 5.0] m — any sample of at least
5.001 m still encodes above 5000 mm. -/
theorem depth_unsanitized_truncation (depth : List (List ℚ))
    (hvals : ∀ row ∈ depth, ∀ d ∈ row, 0 ≤ d ∧ ⌊d * 1000⌋ < 65536) :
    depth.flatten.map depthToU16 =
      depth.flatten.map (fun d => (⌊d * 1000⌋).toNat) ∧
    ∀ row ∈ depth, ∀ d ∈ row, (5001 : ℚ) ≤ d * 1000 → 5000 < depthToU16 d := by
  constructor
  · refine List.map_congr_left ?_
    intro d hd
    rcases List.mem_flatten.mp hd with ⟨row, hrow, hdrow⟩
    rcases hvals row hrow d hdrow with ⟨hd0, hdlt⟩
    have h0 : (0 : ℚ) ≤ d * 1000 := mul_nonneg hd0 (by norm_num)
    have hfl0 : (0 : ℤ) ≤ ⌊d * 1000⌋ := Int.floor_nonneg.mpr h0
    unfold depthToU16 ratTrunc
    rw [if_pos h0]
    exact Nat.mod_eq_of_lt (by omega)
  · intro row hrow d hdrow hbig
    rcases hvals row hrow d hdrow with ⟨hd0, hdlt⟩
    have h0 : (0 : ℚ) ≤ d * 1000 := mul_nonneg hd0 (by norm_num)
    have hfl : (5001 : ℤ) ≤ ⌊d * 1000⌋ := by
      rw [Int.le_floor]
      exact_mod_cast hbig
    unfold depthToU16 ratTrunc
    rw [if_pos h0]
    omega

/-- Witness for C5 (amended) at a one-sample 7.0 m depth map. -/
theorem depth_unsanitized_truncation_witness :
    [[(7 : ℚ)]].flatten.map depthToU16 =
      [[(7 : ℚ)]].flatten.map (fun d => (⌊d * 1000⌋).toNat) ∧
    ∀ row ∈ [[(7 : ℚ)]], ∀ d ∈ row, (5001 : ℚ) ≤ d * 1000 →
      5000 < depthToU16 d :=
  depth_unsanitized_truncation [[(7 : ℚ)]]
    (by intro row hrow d hd
        rw [List.mem_singleton] at hrow; subst hrow
        rw [List.mem_singleton] at hd; subst hd
        constructor
        · norm_num
        · norm_num)
